import Mathlib

/-!
Verification of the translation-regrouping scripts (`make-json`, `make-pot`,
`make-aliases`, `generate-plugin`) of the `@sjofartstidningen/scripts`
repository, as a shallow embedding in Lean.

Strings are modelled by Lean `String`; JS objects holding translation data by
an explicit JSON-like value type with insertion-ordered association lists
(matching the key ordering of JS objects); the external collaborators
(`madge`, the `wp` CLI, the filesystem) are parameters of the embedded
operations.
-/

namespace SstScripts

/-! ### Node `path` helpers and JS string methods -/
/-- Model of Node `path.join` on already-normalized segments: concatenation
with a single separator.  `path.join` with an empty first segment normalizes
to the second segment. -/
def pathJoin (a b : String) : String := if a = "" then b else a ++ "/" ++ b

/-- The part of a path after the last `/` (the basename). -/
def lastComponentL (cs : List Char) : List Char :=
  cs.foldl (fun acc c => if c = '/' then [] else acc ++ [c]) []

/-- Index of the last `.` in a character list, if any. -/
def lastDotIdx (cs : List Char) : Option Nat :=
  (List.range cs.length).foldl
    (fun acc i => if cs.getD i ' ' = '.' then some i else acc) none

/-- Model of Node `path.extname`: the suffix of the basename from its last
dot, or `""` when the basename has no dot or starts with its only dot. -/
def extname (s : String) : String :=
  let base := lastComponentL s.data
  match lastDotIdx base with
  | none => ""
  | some 0 => ""
  | some i => ⟨base.drop i⟩

/-- JS `String.prototype.replace` with a plain-string pattern replaces only
the first occurrence, scanning left to right. -/
def replaceFirstL (pat rep : List Char) : List Char → List Char
  | [] => if pat.isPrefixOf ([] : List Char) then rep else []
  | c :: cs =>
    if pat.isPrefixOf (c :: cs) then rep ++ (c :: cs).drop pat.length
    else c :: replaceFirstL pat rep cs

/-- JS `s.replace(pat, rep)` for a plain-string `pat`. -/
def replaceFirst (pat rep s : String) : String :=
  ⟨replaceFirstL pat.data rep.data s.data⟩

/-- JS `s.replace(/^\//, '')` at the character level: drop a single leading
slash when present. -/
def stripLeadingSlashL : List Char → List Char
  | [] => []
  | c :: cs => if c = '/' then cs else c :: cs

/-- JS `s.replace(/^\//, '')`: drop a single leading slash when present. -/
def stripLeadingSlash (s : String) : String :=
  ⟨stripLeadingSlashL s.data⟩

/-- JS `s.indexOf(pat) > -1`: substring containment. -/
def isSubstrL (pat : List Char) : List Char → Bool
  | [] => pat.isEmpty
  | c :: cs => pat.isPrefixOf (c :: cs) || isSubstrL pat cs

/-- JS substring containment on `String`. -/
def isSubstr (pat s : String) : Bool := isSubstrL pat.data s.data

/-! ### JSON values and insertion-ordered objects

The per-fragment translation data parsed from the `wp i18n make-json` output
is dynamic JSON: string leaves, arrays of translated forms, and objects.  JS
objects iterate their string keys in insertion order, so objects are
insertion-ordered association lists. -/
inductive JsVal where
  | str : String → JsVal
  | arr : List JsVal → JsVal
  | obj : List (String × JsVal) → JsVal
deriving Repr

/-- First-occurrence association-list lookup (JS property read). -/
def lookupField {β : Type} : List (String × β) → String → Option β
  | [], _ => none
  | (k, v) :: rest, key => if k = key then some v else lookupField rest key

/-- JS property write: updating an existing key keeps its position, writing a
fresh key appends it. -/
def setField {β : Type} : List (String × β) → String → β → List (String × β)
  | [], key, val => [(key, val)]
  | (k, v) :: rest, key, val =>
    if k = key then (k, val) :: rest else (k, v) :: setField rest key val

/-- JS `delete obj[key]`. -/
def deleteField {β : Type} : List (String × β) → String → List (String × β)
  | [], _ => []
  | (k, v) :: rest, key =>
    if k = key then deleteField rest key else (k, v) :: deleteField rest key

/-! ### Lodash `_.merge`

`_.merge(dst, src)` (line 199 of `make-json.js` spreads the related fragments
into it) recursively merges plain objects key by key and arrays index by
index; any other source value overwrites the destination value.  The
destination object is mutated: existing keys keep their position, new keys
are appended, and the merged result of `_.merge(...fragments)` is the first
fragment itself. -/
mutual

def mergeVal : JsVal → JsVal → JsVal
  | JsVal.obj d, JsVal.obj s => JsVal.obj (mergeFields d s)
  | JsVal.arr d, JsVal.arr s => JsVal.arr (mergeArr d s)
  | _, s => s

def mergeFields (d : List (String × JsVal)) : List (String × JsVal) → List (String × JsVal)
  | [] => d
  | (k, v) :: rest =>
    mergeFields
      (setField d k
        (match lookupField d k with
         | some dv => mergeVal dv v
         | none => v))
      rest

def mergeArr : List JsVal → List JsVal → List JsVal
  | d, [] => d
  | [], s :: ss => s :: mergeArr [] ss
  | d :: ds, s :: ss => mergeVal d s :: mergeArr ds ss

end

/-! ### Translation catalogs

`TranslationCatalog` as produced by `wp i18n make-json` and consumed by
`generateTranslations`: top-level string fields `domain` and `source` and a
`locale_data` object mapping a domain name to its message table.  The code
reads and writes exactly these three properties. -/
structure Catalog where
  domain : String
  source : String
  locale_data : List (String × JsVal)
deriving Repr

/-- One step of `_.merge` on whole catalog objects: the scalar `domain` and
`source` fields of the later fragment overwrite, `locale_data` objects merge
recursively. -/
def mergeTwo (a b : Catalog) : Catalog :=
  { domain := b.domain, source := b.source,
    locale_data := mergeFields a.locale_data b.locale_data }

/-- Lodash `_.merge(...relatedTranslations)` (make-json.js line 199): left fold of
the later fragments into the first one. -/
def mergeCatalogs (c : Catalog) : List Catalog → Catalog
  | [] => c
  | d :: ds => mergeCatalogs (mergeTwo c d) ds

/-- The re-domain step (make-json.js lines 200–209).  `none` models the
TypeError the strict-mode JS throws when `locale_data[originalDomain]` is
absent or its metadata entry `''` is not an object (the code dereferences
`mergedTranslations.locale_data[domain]['']` unconditionally inside the
branch). -/
def redomain (domain : String) (c : Catalog) : Option Catalog :=
  let originalDomain := c.domain
  if originalDomain ≠ "" ∧ originalDomain ≠ domain then
    match lookupField c.locale_data originalDomain with
    | none => none
    | some tbl =>
      let ld := deleteField (setField c.locale_data domain tbl) originalDomain
      match lookupField ld domain with
      | some (JsVal.obj fields) =>
        match lookupField fields "" with
        | some (JsVal.obj meta) =>
          some { domain := domain, source := c.source,
                 locale_data :=
                   setField ld domain
                     (JsVal.obj (setField fields ""
                       (JsVal.obj (setField meta "domain" (JsVal.str domain))))) }
        | _ => none
      | _ => none
  else some c

/-! ### MD5

The output filename embeds `md5(relativeFilename)` (the `md5` npm package:
UTF-8 encode, RFC 1321 digest, lowercase hex).  Implemented here over `Nat`
with explicit `% 2^32` reductions. -/
/-- UTF-8 encoding of one character as byte values. -/
def utf8Encode (c : Char) : List Nat :=
  let n := c.toNat
  if n < 0x80 then [n]
  else if n < 0x800 then [0xc0 + n / 64, 0x80 + n % 64]
  else if n < 0x10000 then
    [0xe0 + n / 4096, 0x80 + (n / 64) % 64, 0x80 + n % 64]
  else
    [0xf0 + n / 0x40000, 0x80 + (n / 4096) % 64, 0x80 + (n / 64) % 64, 0x80 + n % 64]

/-- UTF-8 byte sequence of a string. -/
def utf8Bytes (s : String) : List Nat := (s.data.map utf8Encode).flatten

/-- MD5 padding: append `0x80`, zero bytes up to 56 mod 64, then the bit
length as eight little-endian bytes. -/
def md5Pad (msg : List Nat) : List Nat :=
  let len := msg.length
  let zeros := (119 - len % 64) % 64
  let bitLen := (len * 8) % 2 ^ 64
  msg ++ [0x80] ++ List.replicate zeros 0 ++
    (List.range 8).map (fun i => bitLen / 256 ^ i % 256)

/-- Per-round shift amounts. -/
def md5Shift : List Nat :=
  [7, 12, 17, 22, 7, 12, 17, 22, 7, 12, 17, 22, 7, 12, 17, 22,
   5, 9, 14, 20, 5, 9, 14, 20, 5, 9, 14, 20, 5, 9, 14, 20,
   4, 11, 16, 23, 4, 11, 16, 23, 4, 11, 16, 23, 4, 11, 16, 23,
   6, 10, 15, 21, 6, 10, 15, 21, 6, 10, 15, 21, 6, 10, 15, 21]

/-- The sine-derived round constants of RFC 1321. -/
def md5K : List Nat :=
  [0xd76aa478, 0xe8c7b756, 0x242070db, 0xc1bdceee,
   0xf57c0faf, 0x4787c62a, 0xa8304613, 0xfd469501,
   0x698098d8, 0x8b44f7af, 0xffff5bb1, 0x895cd7be,
   0x6b901122, 0xfd987193, 0xa679438e, 0x49b40821,
   0xf61e2562, 0xc040b340, 0x265e5a51, 0xe9b6c7aa,
   0xd62f105d, 0x02441453, 0xd8a1e681, 0xe7d3fbc8,
   0x21e1cde6, 0xc33707d6, 0xf4d50d87, 0x455a14ed,
   0xa9e3e905, 0xfcefa3f8, 0x676f02d9, 0x8d2a4c8a,
   0xfffa3942, 0x8771f681, 0x6d9d6122, 0xfde5380c,
   0xa4beea44, 0x4bdecfa9, 0xf6bb4b60, 0xbebfbc70,
   0x289b7ec6, 0xeaa127fa, 0xd4ef3085, 0x04881d05,
   0xd9d4d039, 0xe6db99e5, 0x1fa27cf8, 0xc4ac5665,
   0xf4292244, 0x432aff97, 0xab9423a7, 0xfc93a039,
   0x655b59c3, 0x8f0ccc92, 0xffeff47d, 0x85845dd1,
   0x6fa87e4f, 0xfe2ce6e0, 0xa3014314, 0x4e0811a1,
   0xf7537e82, 0xbd3af235, 0x2ad7d2bb, 0xeb86d391]

/-- 32-bit left rotation. -/
def rotl32 (x n : Nat) : Nat := ((x <<< n) ||| (x >>> (32 - n))) % 2 ^ 32

/-- One of the 64 MD5 rounds on state `(a, b, c, d)`; `m g` is the `g`-th
little-endian message word of the current block. -/
def md5Round (m : Nat → Nat) (st : Nat × Nat × Nat × Nat) (i : Nat) :
    Nat × Nat × Nat × Nat :=
  let a := st.1
  let b := st.2.1
  let c := st.2.2.1
  let d := st.2.2.2
  let f :=
    if i < 16 then (b &&& c) ||| ((0xffffffff ^^^ b) &&& d)
    else if i < 32 then (d &&& b) ||| ((0xffffffff ^^^ d) &&& c)
    else if i < 48 then b ^^^ c ^^^ d
    else c ^^^ (b ||| (0xffffffff ^^^ d))
  let g :=
    if i < 16 then i
    else if i < 32 then (5 * i + 1) % 16
    else if i < 48 then (3 * i + 5) % 16
    else (7 * i) % 16
  let tmp := (f + a + md5K.getD i 0 + m g) % 2 ^ 32
  (d, (b + rotl32 tmp (md5Shift.getD i 0)) % 2 ^ 32, b, c)

/-- The `g`-th little-endian 32-bit word of a 64-byte block. -/
def md5Word (block : List Nat) (g : Nat) : Nat :=
  block.getD (4 * g) 0 + 256 * block.getD (4 * g + 1) 0 +
    65536 * block.getD (4 * g + 2) 0 + 16777216 * block.getD (4 * g + 3) 0

/-- Process one 64-byte block. -/
def md5Block (st : Nat × Nat × Nat × Nat) (block : List Nat) :
    Nat × Nat × Nat × Nat :=
  let r := (List.range 64).foldl (md5Round (md5Word block)) st
  ((st.1 + r.1) % 2 ^ 32, (st.2.1 + r.2.1) % 2 ^ 32,
   (st.2.2.1 + r.2.2.1) % 2 ^ 32, (st.2.2.2 + r.2.2.2) % 2 ^ 32)

/-- A 32-bit word as eight lowercase hex digits of its little-endian bytes. -/
def wordToHexLE (w : Nat) : List Char :=
  let hexChar := fun (n : Nat) => "0123456789abcdef".data.getD n '0'
  (List.range 4).foldl
    (fun acc i => acc ++ [hexChar (w / 256 ^ i / 16 % 16), hexChar (w / 256 ^ i % 16)])
    []

/-- Lowercase-hex MD5 digest of a string, matching the `md5` npm package. -/
def md5hex (s : String) : String :=
  let msg := md5Pad (utf8Bytes s)
  let st :=
    (List.range (msg.length / 64)).foldl
      (fun st i => md5Block st ((msg.drop (64 * i)).take 64))
      (0x67452301, 0xefcdab89, 0x98badcfe, 0x10325476)
  ⟨wordToHexLE st.1 ++ wordToHexLE st.2.1 ++ wordToHexLE st.2.2.1 ++ wordToHexLE st.2.2.2⟩

/-! ### The translation regrouping engine

`generateTranslations` (make-json.js lines 167–232) runs once per locale.
The project layout comes from `getData` (data.js): all directories hang off
the package root.  The external dependency analyzer `madge` is a parameter
`madgeDeps` mapping an entry file to the keys of `result.obj()`. -/
structure Paths where
  root : String
deriving Repr

def Paths.src (p : Paths) : String := pathJoin p.root "src"

def Paths.dist (p : Paths) : String := pathJoin p.root "dist"

/-- In-place mutation of the first array element satisfying `p` — the effect
`_.merge`, the re-domain step and the `source` assignment have on the shared
`translations` array, whose first matching fragment is the merge
destination. -/
def updateFirst (p : Catalog → Bool) (c : Catalog) : List Catalog → List Catalog
  | [] => []
  | t :: ts => if p t then c :: ts else t :: updateFirst p c ts

/-- The dependency set of an entrypoint (make-json.js lines 184–187): the
keys of the `madge` result object, each joined onto the `src` directory. -/
def dependecies (madgeDeps : String → List String) (paths : Paths) (key : String) :
    List String :=
  (madgeDeps (pathJoin paths.src key)).map (fun dep => pathJoin paths.src dep)

/-- The filter predicate of lines 189–191: a fragment is related when its
`source`, joined onto the project root, is in the dependency set. -/
def isRelated (madgeDeps : String → List String) (paths : Paths) (key : String)
    (t : Catalog) : Bool :=
  (dependecies madgeDeps paths key).contains (pathJoin paths.root t.source)

/-- The relative output filename of lines 211–213:
`distFile.replace(paths.root, '').replace(/^\//, '')`. -/
def relativeFilename (paths : Paths) (manifestValue : String) : String :=
  stripLeadingSlash (replaceFirst paths.root "" (pathJoin paths.dist manifestValue))

/-- The body of the `for (const key in manifest)` loop of
`generateTranslations` for one manifest entry `(key, manifestValue)`,
i.e. the work done for one (entrypoint, locale) pair.

Returns `none` when the JS would throw (the re-domain TypeError), and
otherwise the optionally emitted write (output filename and serialized
catalog) together with the state of the shared `translations` array after
the iteration. -/
def processEntry (madgeDeps : String → List String) (paths : Paths)
    (lang domain : String) (translations : List Catalog)
    (key manifestValue : String) :
    Option (Option (String × Catalog) × List Catalog) :=
  if extname key ≠ ".js" then some (none, translations)
  else
    match translations.filter (isRelated madgeDeps paths key) with
    | [] => some (none, translations)
    | first :: rest =>
      let mergedTranslations := mergeCatalogs first rest
      match redomain domain mergedTranslations with
      | none => none
      | some c1 =>
        let c2 : Catalog :=
          { domain := c1.domain, source := relativeFilename paths manifestValue,
            locale_data := c1.locale_data }
        let translationFileName :=
          pathJoin paths.dist
            (domain ++ "-" ++ lang ++ "-" ++
              md5hex (relativeFilename paths manifestValue) ++ ".json")
        some (some (translationFileName, c2),
          updateFirst (isRelated madgeDeps paths key) c2 translations)

/-- The whole per-locale `generateTranslations` loop: fold the manifest
entries (in object-key order), collecting the writes and threading the
mutable `translations` array. -/
def generateTranslations (madgeDeps : String → List String) (paths : Paths)
    (lang domain : String) (manifest : List (String × String))
    (translations : List Catalog) :
    Option (List (String × Catalog) × List Catalog) :=
  manifest.foldl
    (fun acc entry =>
      match acc with
      | none => none
      | some (writes, ts) =>
        match processEntry madgeDeps paths lang domain ts entry.1 entry.2 with
        | none => none
        | some (w, ts') => some (writes ++ w.toList, ts'))
    (some ([], translations))

/-- The per-key effect of one `_.merge` step: a key absent from the source
keeps the accumulated value, a key present in the source merges on top of
the accumulated value (or is taken outright when the key is new). -/
def mergeAtKey (acc tv : Option JsVal) : Option JsVal :=
  match tv with
  | none => acc
  | some v =>
    some (match acc with
          | some a => mergeVal a v
          | none => v)

/-! ### Domain extraction (make-json.js lines 71–94)

`extractDomain` filters the directory listing to `.pot`/`.po` files and, for
each in order, evaluates `content.match(/"x-domain: (\S+)\\n"/i)` and
destructures the result.  `String.prototype.match` returns `null` when the
regex does not match, so the destructuring `const [, domain] = ...` throws a
TypeError on a file without the marker. -/
inductive ExtractError where
  /-- The error "no .po- or .pot-files were found in the languages directory" -/
  | noTemplates : ExtractError
  /-- Thrown because `content.match(...)` returned null and `const [, domain] = null` destructured it -/
  | typeError : ExtractError
  /-- the loop ran out of files (the final throw of `extractDomain`) -/
  | noDomain : ExtractError
deriving Repr, DecidableEq

/-- The literal part of the pattern `/"x-domain: (\S+)\\n"/i`, lowercased. -/
def xDomainPat : List Char := ['"', 'x', '-', 'd', 'o', 'm', 'a', 'i', 'n', ':', ' ']

/-- Case-insensitive literal prefix test (the regex `i` flag on ASCII). -/
def lowerPrefixMatch : List Char → List Char → Bool
  | [], _ => true
  | _ :: _, [] => false
  | p :: ps, c :: cs => p = c.toLower && lowerPrefixMatch ps cs

/-- Length of the leading run of `\S` (non-whitespace) characters. -/
def nonspaceRun : List Char → Nat
  | [] => 0
  | c :: cs => if c.isWhitespace then 0 else nonspaceRun cs + 1

/-- Greedy match of `(\S+)\\n"`: the longest nonempty non-whitespace prefix
followed by the three literal characters `\`, `n`, `"`. -/
def findGreedy (tail : List Char) : Nat → Option (List Char)
  | 0 => none
  | k + 1 =>
    if ['\\', 'n', '"'].isPrefixOf (tail.drop (k + 1)) then some (tail.take (k + 1))
    else findGreedy tail k

/-- Capture attempt for the part of the regex after the literal prefix. -/
def captureAt (tail : List Char) : Option (List Char) :=
  findGreedy tail (nonspaceRun tail)

/-- First match of `/"x-domain: (\S+)\\n"/i` in the content, returning the
captured group; scans match start positions left to right. -/
def jsMatchXDomainL : List Char → Option (List Char)
  | [] => none
  | c :: cs =>
    if lowerPrefixMatch xDomainPat (c :: cs) then
      match captureAt ((c :: cs).drop xDomainPat.length) with
      | some g => some g
      | none => jsMatchXDomainL cs
    else jsMatchXDomainL cs

/-- Model of `content.match(/"x-domain: (\S+)\\n"/i)`, captured group only. -/
def jsMatchXDomain (content : String) : Option String :=
  (jsMatchXDomainL content.data).map fun g => ⟨g⟩

/-- The `for` loop of `extractDomain` over the filtered template files. -/
def extractDomainLoop : List (String × String) → Except ExtractError String
  | [] => Except.error ExtractError.noDomain
  | (_, content) :: rest =>
    match jsMatchXDomain content with
    | none => Except.error ExtractError.typeError
    | some domain =>
      if domain ≠ "" then Except.ok domain else extractDomainLoop rest

/-- Model of `extractDomain` over the directory listing, a list of
(filename, content) pairs in directory order. -/
def extractDomain (files : List (String × String)) : Except ExtractError String :=
  let translationFiles := files.filter
    (fun file => extname file.1 = ".pot" || extname file.1 = ".po")
  if translationFiles.length < 1 then Except.error ExtractError.noTemplates
  else extractDomainLoop translationFiles

/-! ### `make-aliases` (make-aliases.js)

Only the computation of the rewritten `pkg.alias` mapping is modelled; the
contents of the emitted redirect files are not observed by any claim. -/
/-- JS `dep.split('/')` second component; the template literal renders an
absent component as the string "undefined". -/
def moduleNameOf (dep : String) : String :=
  match (dep.splitOn "/").get? 1 with
  | some m => m
  | none => "undefined"

/-- The `@wordpress`-scoped part of the `dependencies` array (lines 32–43):
dependency names containing `@wordpress`, with their alias filenames. -/
def wpAliasEntries (deps : List String) : List (String × String) :=
  (deps.filter (fun dep => isSubstr "@wordpress" dep)).map
    (fun dep => (dep, "wordpress-" ++ moduleNameOf dep ++ ".js"))

/-- The full `dependencies` array: `@wordpress` entries plus the `react` and
`lodash` special cases (lines 45–59). -/
def aliasFileEntries (deps : List String) : List (String × String) :=
  wpAliasEntries deps ++
    (if deps.contains "react" then [("react", "react.js")] else []) ++
    (if deps.contains "lodash" then [("lodash", "lodash.js")] else [])

def aliasesRelativeRoot : String := "./src/alias"

/-- The alias mapping written back to package.json (lines 65–82): start from
the previous `pkg.alias` with every `@wordpress`-containing key dropped, then
assign `alias[name] = aliasesRelativeRoot/filename` for each dependency
entry in order. -/
def makeAliasesAlias (pkgAlias : List (String × String)) (deps : List String) :
    List (String × String) :=
  let aliasMap := pkgAlias.filter (fun kv => !(isSubstr "@wordpress" kv.1))
  (aliasFileEntries deps).foldl
    (fun acc nf => setField acc nf.1 (aliasesRelativeRoot ++ "/" ++ nf.2)) aliasMap

/-! ### Error propagation of the top-level operations

Each operation is modelled over an environment giving the outcome of every
effectful sub-step.  The result is `Except`: `Except.error` means an error
escaped the operation to its caller; `Except.ok logs` means it returned
normally after printing `logs` to the console. -/
structure MakeJsonEnv where
  getData : Except String Unit
  ensureDirs : Except String Unit
  extractDomainStep : Except String Unit
  getOriginalTranslations : Except String Unit
  getAssetsManifest : Except String Unit
  generateAll : Except String Unit

/-- The body of `makeJson`'s try block (make-json.js lines 31–55). -/
def makeJsonBody (env : MakeJsonEnv) : Except String Unit := do
  let _ ← env.getData
  let _ ← env.ensureDirs
  let _ ← env.extractDomainStep
  let _ ← env.getOriginalTranslations
  let _ ← env.getAssetsManifest
  env.generateAll

/-- Control flow of `makeJson` (lines 29–60): the whole body runs inside try/catch. -/
def makeJson (env : MakeJsonEnv) : Except String (List String) :=
  match makeJsonBody env with
  | Except.ok _ => Except.ok []
  | Except.error e => Except.ok ["Could not generate translations", e]

structure MakePotEnv where
  getData : Except String Unit
  copySrc : Except String Unit
  replaceImports : Except String Unit
  execaWp : Except String Unit
  copyBack : Except String Unit
  removeTemp : Except String Unit

/-- The body of `makePot`'s try block (make-pot.js lines 22–40). -/
def makePotBody (env : MakePotEnv) : Except String Unit := do
  let _ ← env.copySrc
  let _ ← env.replaceImports
  env.execaWp

/-- Control flow of `makePot` (make-pot.js lines 18–56): `getData` on line 19 runs before
the try block, so its errors propagate; everything else is caught, and the
finally block's copy/remove failures are swallowed by `.catch(() => {})`. -/
def makePot (env : MakePotEnv) : Except String (List String) :=
  match env.getData with
  | Except.error e => Except.error e
  | Except.ok _ =>
    match makePotBody env with
    | Except.ok _ => Except.ok []
    | Except.error e =>
      Except.ok ["An error occured while generating a .pot-file", e]

structure MakeAliasesEnv where
  getData : Except String Unit
  removePreviousWpAliases : Except String Unit
  writeAliasFiles : Except String Unit
  writePackage : Except String Unit

/-- The body of `makeAliases`' try block (make-aliases.js lines 18–87). -/
def makeAliasesBody (env : MakeAliasesEnv) : Except String Unit := do
  let _ ← env.getData
  let _ ← env.removePreviousWpAliases
  let _ ← env.writeAliasFiles
  env.writePackage

/-- Control flow of `makeAliases` (lines 16–91): the whole body runs inside try/catch. -/
def makeAliases (env : MakeAliasesEnv) : Except String (List String) :=
  match makeAliasesBody env with
  | Except.ok _ => Except.ok []
  | Except.error e => Except.ok [e]

/-- The `paths` object `getData` builds (data.js lines 12–19), as its
key-value list: it has exactly the keys `root`, `src`, `dist`, `languages`,
`views` and `temp` (the last one is `os.tmpdir()`, passed in).  A JS read of
any other key — such as `generatePlugin`'s `data.paths.projectRoot` — yields
undefined, modelled as a failed lookup. -/
def getDataPaths (rootDir tmpDir : String) : List (String × String) :=
  [("root", rootDir),
   ("src", pathJoin rootDir "src"),
   ("dist", pathJoin rootDir "dist"),
   ("languages", pathJoin rootDir "languages"),
   ("views", pathJoin rootDir "views"),
   ("temp", tmpDir)]

/-- Node `path.join` validates each argument in order and throws a
TypeError when one is not a string; an undefined property read passed as
the first argument is such a value.  The error string is representative of
Node's message. -/
def pathJoin3Checked (a : Option String) (b c : String) : Except String String :=
  match a with
  | none => Except.error "TypeError: Path must be a string. Received undefined"
  | some s => Except.ok (pathJoin (pathJoin s b) c)

structure GeneratePluginEnv where
  prompt : Except String Unit
  /-- Outcome of `await getData()`; on success, the `rootDir` and tmpdir
  strings its paths object is built from. -/
  getData : Except String (String × String)
  /-- The directory name `sst-${_.kebabCase(answers.pluginName)}` — always a
  string (template literals on strings cannot throw), its exact value
  irrelevant to control flow. -/
  pluginDir : String
  /-- Outcome of building `templateData`/`files` (lines 129–155): the
  template renderings dereference `templateData.package`
  (= `data.projectPackage`, also absent from `getData`'s result), still
  before the try block. -/
  renderTemplates : Except String Unit
  mkdirs : Except String Unit
  writeFiles : Except String Unit

/-- Control flow of `generatePlugin` (generate-plugin.js lines 89–175):
`inquirer.prompt` and `getData` run before the try block, and so does the
scaffolding preparation of lines 121–155 — `data.paths.plugins =
path.join(data.paths.projectRoot, 'web/app/mu-plugins', ...)` followed by
the template renderings.  The paths object `getData` builds has no
`projectRoot` key, so that read yields undefined and `path.join` throws a
TypeError outside any catch; only the mkdir/write phase of lines 157–174
is wrapped in try/catch. -/
def generatePlugin (env : GeneratePluginEnv) : Except String (List String) :=
  match env.prompt with
  | Except.error e => Except.error e
  | Except.ok _ =>
    match env.getData with
    | Except.error e => Except.error e
    | Except.ok data =>
      match pathJoin3Checked (lookupField (getDataPaths data.1 data.2) "projectRoot")
          "web/app/mu-plugins" env.pluginDir with
      | Except.error e => Except.error e
      | Except.ok _ =>
        match env.renderTemplates with
        | Except.error e => Except.error e
        | Except.ok _ =>
          match (do let _ ← env.mkdirs; env.writeFiles : Except String Unit) with
          | Except.ok _ => Except.ok []
          | Except.error e => Except.ok ["Failed to create plugin", e]

/-! ### Concrete fixtures used by the claim-level theorems -/
/-- A JED metadata entry for locale `sv_SE` and domain `d`. -/
def metaD : JsVal :=
  JsVal.obj [("domain", JsVal.str "d"), ("lang", JsVal.str "sv_SE")]

/-- A message table holding key `k` with two plural forms. -/
def tblA : List (String × JsVal) :=
  [("", metaD), ("k", JsVal.arr [JsVal.str "one", JsVal.str "two"])]

/-- A message table holding key `k` with a single form. -/
def tblB : List (String × JsVal) :=
  [("", metaD), ("k", JsVal.arr [JsVal.str "uno"])]

/-- A fragment whose table holds message `k` with two plural forms. -/
def cxFragA : Catalog :=
  { domain := "d", source := "src/a.js", locale_data := [("d", JsVal.obj tblA)] }

/-- A later fragment whose table holds message `k` with a single form. -/
def cxFragB : Catalog :=
  { domain := "d", source := "src/b.js", locale_data := [("d", JsVal.obj tblB)] }

/-- An `en_US` fragment extracted from `src/a.js` under domain `orig`. -/
def enFrag : Catalog :=
  { domain := "orig", source := "src/a.js",
    locale_data :=
      [("orig", JsVal.obj
        [("", JsVal.obj [("domain", JsVal.str "orig"), ("lang", JsVal.str "en_US")]),
         ("Hello", JsVal.arr [JsVal.str "Hej"])])] }

/-- The catalog emitted for `enFrag` in the manifest scenario
`{"a.js": "a.abc123.js"}` with target domain `myplugin`. -/
def enFragOut : Catalog :=
  { domain := "myplugin", source := "dist/a.abc123.js",
    locale_data :=
      [("myplugin", JsVal.obj
        [("", JsVal.obj [("domain", JsVal.str "myplugin"), ("lang", JsVal.str "en_US")]),
         ("Hello", JsVal.arr [JsVal.str "Hej"])])] }

/-- A `sv_SE` fragment extracted from `src/a.js` under domain `orig`. -/
def svFrag : Catalog :=
  { domain := "orig", source := "src/a.js",
    locale_data :=
      [("orig", JsVal.obj
        [("", JsVal.obj [("domain", JsVal.str "orig"), ("lang", JsVal.str "sv_SE")]),
         ("Hello", JsVal.arr [JsVal.str "Hej"])])] }

/-- The catalog `svFrag` is overwritten with when entry `a.js ↦ a.js` of the
manifest is processed for locale `sv_SE` and target domain `myplugin`. -/
def svFragOut : Catalog :=
  { domain := "myplugin", source := "dist/a.js",
    locale_data :=
      [("myplugin", JsVal.obj
        [("", JsVal.obj [("domain", JsVal.str "myplugin"), ("lang", JsVal.str "sv_SE")]),
         ("Hello", JsVal.arr [JsVal.str "Hej"])])] }

theorem replaceFirstL_append (pat rep t : List Char) :
    replaceFirstL pat rep (pat ++ t) = rep ++ t := by
  have hpre : pat.isPrefixOf (pat ++ t) = true :=
    List.isPrefixOf_iff_prefix.mpr ⟨t, rfl⟩
  cases h : pat ++ t with
  | nil =>
    rcases List.append_eq_nil.mp h with ⟨hp, ht⟩
    subst hp; subst ht
    simp [replaceFirstL, List.isPrefixOf]
  | cons c cs =>
    rw [h] at hpre
    rw [replaceFirstL, hpre]
    simp only [if_true, ← h, List.drop_left]

/-- Stripping the project root (the code's
`distFile.replace(paths.root, '')`) from a path that starts with the root
leaves exactly the remainder. -/
theorem replaceFirst_prefix (root t : String) :
    replaceFirst root "" (⟨root.data ++ t.data⟩ : String) = t := by
  simp only [replaceFirst, replaceFirstL_append, List.nil_append]

theorem lookupField_setField_self {β : Type} (l : List (String × β)) (k : String) (v : β) :
    lookupField (setField l k v) k = some v := by
  induction l with
  | nil => simp [setField, lookupField]
  | cons hd tl ih =>
    obtain ⟨k', v'⟩ := hd
    by_cases h : k' = k
    · simp [setField, lookupField, h]
    · simp [setField, lookupField, h, ih]

theorem lookupField_setField_ne {β : Type} (l : List (String × β)) (k k' : String) (v : β)
    (h : k ≠ k') : lookupField (setField l k v) k' = lookupField l k' := by
  induction l with
  | nil => simp [setField, lookupField, h]
  | cons hd tl ih =>
    obtain ⟨k₀, v₀⟩ := hd
    by_cases h₀ : k₀ = k
    · subst h₀; simp [setField, lookupField, h]
    · simp only [setField, h₀, if_false, lookupField]
      by_cases h₁ : k₀ = k'
      · simp [h₁]
      · simp [h₁, ih]

theorem lookupField_deleteField_self {β : Type} (l : List (String × β)) (k : String) :
    lookupField (deleteField l k) k = none := by
  induction l with
  | nil => simp [deleteField, lookupField]
  | cons hd tl ih =>
    obtain ⟨k', v'⟩ := hd
    by_cases h : k' = k
    · simp [deleteField, h, ih]
    · simp [deleteField, h, lookupField, ih]

theorem lookupField_deleteField_ne {β : Type} (l : List (String × β)) (k k' : String)
    (h : k ≠ k') : lookupField (deleteField l k) k' = lookupField l k' := by
  induction l with
  | nil => simp [deleteField]
  | cons hd tl ih =>
    obtain ⟨k₀, v₀⟩ := hd
    by_cases h₀ : k₀ = k
    · subst h₀
      simp [deleteField, lookupField, h, ih]
    · simp only [deleteField, h₀, if_false, lookupField]
      by_cases h₁ : k₀ = k'
      · simp [h₁]
      · simp [h₁, ih]

theorem lookupField_eq_none_of_not_mem {β : Type} (l : List (String × β)) (k : String)
    (h : k ∉ l.map Prod.fst) : lookupField l k = none := by
  induction l with
  | nil => rfl
  | cons hd tl ih =>
    obtain ⟨k₀, v₀⟩ := hd
    simp only [List.map_cons, List.mem_cons, not_or] at h
    have : k₀ ≠ k := fun e => h.1 e.symm
    simp [lookupField, this, ih h.2]

/-- How a single `_.merge` of one source object into a destination object
reads back at an arbitrary key, assuming the source has no duplicate keys
(JSON-parsed objects never do): the source value wins, merged on top of the
destination value when the key collides. -/
theorem lookupField_mergeFields (s d : List (String × JsVal)) (k : String)
    (hs : (s.map Prod.fst).Nodup) :
    lookupField (mergeFields d s) k =
      match lookupField s k with
      | none => lookupField d k
      | some sv =>
        some (match lookupField d k with
              | some dv => mergeVal dv sv
              | none => sv) := by
  induction s generalizing d with
  | nil => simp [mergeFields, lookupField]
  | cons hd rest ih =>
    obtain ⟨k₁, v₁⟩ := hd
    simp only [List.map_cons, List.nodup_cons] at hs
    rw [mergeFields]
    rw [ih _ hs.2]
    by_cases hk : k₁ = k
    · subst hk
      have hrest : lookupField rest k₁ = none :=
        lookupField_eq_none_of_not_mem rest k₁ hs.1
      simp [lookupField, hrest, lookupField_setField_self]
    · simp [lookupField, hk, lookupField_setField_ne _ _ _ _ hk]

theorem stringExt {s t : String} (h : s.data = t.data) : s = t := by
  cases s; cases t; exact congrArg String.mk h

theorem string_data_append (a b : String) : (a ++ b).data = a.data ++ b.data := rfl

theorem replaceFirstL_nil_pat (s : List Char) : replaceFirstL [] [] s = s := by
  cases s <;> simp [replaceFirstL, List.isPrefixOf]

/-- The relative output filename is always `dist/<manifestValue>`: the dist
directory path starts with the project root, the first-occurrence `replace`
strips exactly that prefix, and the `/^\//` replace removes the remaining
separator (when the root is empty there is no separator to remove and both
replaces are no-ops). -/
theorem relativeFilename_eq (paths : Paths) (v : String) :
    relativeFilename paths v = "dist/" ++ v := by
  apply stringExt
  have hnil : "".data = ([] : List Char) := rfl
  have hdist : ("dist/" ++ v).data = 'd' :: 'i' :: 's' :: 't' :: '/' :: v.data := by
    rw [string_data_append]; rfl
  rw [relativeFilename]
  dsimp only [stripLeadingSlash, replaceFirst]
  by_cases h : paths.root = ""
  · have hd : Paths.dist paths = "dist" := by
      rw [Paths.dist, pathJoin, if_pos h]
    have h1 : (pathJoin (Paths.dist paths) v).data =
        'd' :: 'i' :: 's' :: 't' :: '/' :: v.data := by
      rw [hd]; rfl
    rw [h, hnil, h1, replaceFirstL_nil_pat, hdist]
    simp [stripLeadingSlashL]
  · have hne : Paths.dist paths ≠ "" := by
      rw [Paths.dist, pathJoin, if_neg h]
      intro hc
      have hlen := congrArg List.length (congrArg String.data hc)
      rw [string_data_append, string_data_append] at hlen
      simp at hlen
    have h1 : (pathJoin (Paths.dist paths) v).data =
        paths.root.data ++ ('/' :: 'd' :: 'i' :: 's' :: 't' :: '/' :: v.data) := by
      rw [pathJoin, if_neg hne, Paths.dist, pathJoin, if_neg h]
      rw [string_data_append, string_data_append, string_data_append,
        string_data_append]
      simp [List.append_assoc]
    rw [h1, replaceFirstL_append, hdist]
    simp [stripLeadingSlashL]

theorem updateFirst_eq_set (p : Catalog → Bool) (c : Catalog) (ts : List Catalog) :
    updateFirst p c ts =
      match ts.findIdx? p with
      | none => ts
      | some i => ts.set i c := by
  induction ts with
  | nil => simp [updateFirst]
  | cons t ts ih =>
    by_cases h : p t
    · simp [updateFirst, h, List.findIdx?_cons]
    · simp only [updateFirst, h, if_false, List.findIdx?_cons, Bool.false_eq_true]
      rw [ih]
      cases hf : ts.findIdx? p <;> simp [hf]

theorem findIdx?_isSome_of_filter_cons (p : Catalog → Bool) (ts : List Catalog)
    (first : Catalog) (rest : List Catalog) (h : ts.filter p = first :: rest) :
    ∃ i, ts.findIdx? p = some i := by
  induction ts with
  | nil => simp at h
  | cons t ts ih =>
    by_cases hp : p t
    · exact ⟨0, by simp [List.findIdx?_cons, hp]⟩
    · rw [List.filter_cons_of_neg hp] at h
      obtain ⟨i, hi⟩ := ih h
      exact ⟨i + 1, by simp [List.findIdx?_cons, hp, hi]⟩

/-- Analysis of an iteration of `generateTranslations` that emits a write:
the related fragments were nonempty, the write is the merged and re-domained
catalog with its `source` rewritten to the relative dist filename, the
filename has the `{domain}-{lang}-{md5}.json` shape, and the shared
fragment array has its first related fragment overwritten. -/
theorem processEntry_emits (madgeDeps : String → List String) (paths : Paths)
    (lang domain : String) (ts : List Catalog) (key v : String)
    (fname : String) (c : Catalog) (ts' : List Catalog)
    (h : processEntry madgeDeps paths lang domain ts key v =
      some (some (fname, c), ts')) :
    ∃ first rest c1,
      ts.filter (isRelated madgeDeps paths key) = first :: rest ∧
      redomain domain (mergeCatalogs first rest) = some c1 ∧
      c = { domain := c1.domain, source := relativeFilename paths v,
            locale_data := c1.locale_data } ∧
      fname = pathJoin paths.dist
        (domain ++ "-" ++ lang ++ "-" ++ md5hex (relativeFilename paths v) ++ ".json") ∧
      ts' = updateFirst (isRelated madgeDeps paths key) c ts := by
  rw [processEntry] at h
  by_cases hext : extname key ≠ ".js"
  · rw [if_pos hext] at h; simp at h
  · rw [if_neg hext] at h
    cases hf : ts.filter (isRelated madgeDeps paths key) with
    | nil => rw [hf] at h; simp at h
    | cons first rest =>
      rw [hf] at h
      dsimp only at h
      cases hr : redomain domain (mergeCatalogs first rest) with
      | none => rw [hr] at h; simp at h
      | some c1 =>
        rw [hr] at h
        simp only [Option.some.injEq, Prod.mk.injEq] at h
        obtain ⟨⟨hfn, hc⟩, hts⟩ := h
        exact ⟨first, rest, c1, rfl, hr, hc.symm, hfn.symm, by rw [← hc, hts]⟩

theorem lookupField_foldl_mergeFields (ts : List (List (String × JsVal)))
    (t0 : List (String × JsVal)) (k : String)
    (h : ∀ t ∈ ts, (t.map Prod.fst).Nodup) :
    lookupField (ts.foldl mergeFields t0) k =
      ts.foldl (fun acc t => mergeAtKey acc (lookupField t k)) (lookupField t0 k) := by
  induction ts generalizing t0 with
  | nil => rfl
  | cons s rest ih =>
    rw [List.foldl_cons, List.foldl_cons,
      ih (mergeFields t0 s) (fun t ht => h t (List.mem_cons_of_mem _ ht))]
    have hstep : lookupField (mergeFields t0 s) k =
        mergeAtKey (lookupField t0 k) (lookupField s k) := by
      rw [lookupField_mergeFields s t0 k (h s (List.mem_cons_self _ _))]
      cases lookupField s k <;> cases lookupField t0 k <;> rfl
    rw [hstep]

/-- Merging a chain of catalogs that all carry their table under the same
domain key produces a catalog whose `locale_data` is that single key bound
to the left fold of the tables under `_.merge`. -/
theorem mergeCatalogs_localeData (dom : String) (c : Catalog) (cs : List Catalog)
    (tc : List (String × JsVal)) (ts : List (List (String × JsVal)))
    (hc : c.locale_data = [(dom, JsVal.obj tc)])
    (hcs : List.Forall₂
      (fun (d : Catalog) t => d.locale_data = [(dom, JsVal.obj t)]) cs ts) :
    (mergeCatalogs c cs).locale_data =
      [(dom, JsVal.obj (ts.foldl mergeFields tc))] := by
  induction hcs generalizing c tc with
  | nil => simpa [mergeCatalogs] using hc
  | @cons d t ds ts' hd htl ih =>
    rw [mergeCatalogs, List.foldl_cons]
    apply ih
    show mergeFields c.locale_data d.locale_data = _
    rw [hc, hd]
    simp [mergeFields, lookupField, setField, mergeVal]

theorem mergeAtKey_isSome (acc tv : Option JsVal) :
    (mergeAtKey acc tv).isSome = (acc.isSome || tv.isSome) := by
  cases acc <;> cases tv <;> rfl

theorem foldl_mergeAtKey_isSome (ts : List (List (String × JsVal))) (k : String)
    (acc : Option JsVal) :
    ((ts.foldl (fun acc t => mergeAtKey acc (lookupField t k)) acc).isSome = true) ↔
      (acc.isSome = true ∨ ∃ t ∈ ts, (lookupField t k).isSome = true) := by
  induction ts generalizing acc with
  | nil => simp
  | cons s rest ih =>
    rw [List.foldl_cons, ih, mergeAtKey_isSome]
    simp only [Bool.or_eq_true]
    constructor
    · rintro (⟨ha | hs⟩ | ⟨t, ht, hl⟩)
      · exact Or.inl ha
      · exact Or.inr ⟨s, List.mem_cons_self _ _, hs⟩
      · exact Or.inr ⟨t, List.mem_cons_of_mem _ ht, hl⟩
    · rintro (ha | ⟨t, ht, hl⟩)
      · exact Or.inl (Or.inl ha)
      · rcases List.mem_cons.mp ht with rfl | ht'
        · exact Or.inl (Or.inr hl)
        · exact Or.inr ⟨t, ht', hl⟩

/-! ### The claims -/
/-- C8: re-domaining is idempotent — when the merged catalog's domain
already equals the target domain, the re-domain step of
`generateTranslations` returns the catalog unchanged: no key is moved,
deleted or rewritten. -/
theorem c8_redomain_idempotent (domain : String) (c : Catalog)
    (h : c.domain = domain) : redomain domain c = some c := by
  rw [redomain]
  simp [h]

/-- C8 witness: a concrete catalog whose domain equals the target passes
through the re-domain step unchanged. -/
theorem c8_redomain_idempotent_witness :
    redomain "d" cxFragA = some cxFragA :=
  c8_redomain_idempotent "d" cxFragA rfl

/-- C2 (amended: the original domain must also be truthy, i.e. non-empty —
the code guards with `originalDomain && originalDomain !== domain`): when
the merged catalog's domain is non-empty and differs from the target, the
re-domain step moves `locale_data[originalDomain]` to the target key,
deletes the original key, rewrites the metadata `domain` field, sets the
top-level `domain`, and leaves every other `locale_data` key unchanged. -/
theorem c2_redomain_moves (d : String) (c : Catalog)
    (fields meta : List (String × JsVal))
    (hne : c.domain ≠ "") (hdiff : c.domain ≠ d)
    (htbl : lookupField c.locale_data c.domain = some (JsVal.obj fields))
    (hmeta : lookupField fields "" = some (JsVal.obj meta)) :
    ∃ c', redomain d c = some c' ∧
      c'.domain = d ∧
      c'.source = c.source ∧
      lookupField c'.locale_data d =
        some (JsVal.obj (setField fields ""
          (JsVal.obj (setField meta "domain" (JsVal.str d))))) ∧
      lookupField c'.locale_data c.domain = none ∧
      ∀ k, k ≠ d → k ≠ c.domain →
        lookupField c'.locale_data k = lookupField c.locale_data k := by
  have hlook : lookupField
      (deleteField (setField c.locale_data d (JsVal.obj fields)) c.domain) d =
      some (JsVal.obj fields) := by
    rw [lookupField_deleteField_ne _ _ _ hdiff, lookupField_setField_self]
  have hred : redomain d c = some
      { domain := d, source := c.source,
        locale_data :=
          setField (deleteField (setField c.locale_data d (JsVal.obj fields)) c.domain) d
            (JsVal.obj (setField fields ""
              (JsVal.obj (setField meta "domain" (JsVal.str d))))) } := by
    rw [redomain]
    simp only [ne_eq, hne, not_false_iff, hdiff, and_self, if_pos, htbl, hlook, hmeta]
  refine ⟨_, hred, rfl, rfl, ?_, ?_, ?_⟩
  · exact lookupField_setField_self _ _ _
  · rw [lookupField_setField_ne _ _ _ _ (Ne.symm hdiff),
      lookupField_deleteField_self]
  · intro k hkd hkc
    rw [lookupField_setField_ne _ _ _ _ (Ne.symm hkd),
      lookupField_deleteField_ne _ _ _ (Ne.symm hkc),
      lookupField_setField_ne _ _ _ _ (Ne.symm hkd)]

/-- C2 witness: the re-domain step applied to a concrete merged catalog with
original domain `orig` and target `myplugin`. -/
theorem c2_redomain_moves_witness :
    ∃ c', redomain "myplugin" svFrag = some c' ∧
      c'.domain = "myplugin" ∧
      c'.source = svFrag.source ∧
      lookupField c'.locale_data "myplugin" =
        some (JsVal.obj (setField
          [("", JsVal.obj [("domain", JsVal.str "orig"), ("lang", JsVal.str "sv_SE")]),
           ("Hello", JsVal.arr [JsVal.str "Hej"])] ""
          (JsVal.obj (setField
            [("domain", JsVal.str "orig"), ("lang", JsVal.str "sv_SE")]
            "domain" (JsVal.str "myplugin"))))) ∧
      lookupField c'.locale_data svFrag.domain = none ∧
      ∀ k, k ≠ "myplugin" → k ≠ svFrag.domain →
        lookupField c'.locale_data k = lookupField svFrag.locale_data k :=
  c2_redomain_moves "myplugin" svFrag _ _ (by decide) (by decide) rfl rfl

/-- C2 counterexample: the claim as stated quantifies over every catalog
whose domain differs from the target, but the code's guard
`originalDomain && originalDomain !== domain` also requires truthiness.  A
merged catalog with the (falsy) empty-string domain differs from the target
yet is left completely unchanged: nothing is moved and the top-level
`domain` is not set to the target. -/
theorem c2_counterexample :
    (Catalog.mk "" "s" [("", JsVal.obj [("", metaD)])]).domain ≠ "myplugin" ∧
    redomain "myplugin" (Catalog.mk "" "s" [("", JsVal.obj [("", metaD)])]) =
      some (Catalog.mk "" "s" [("", JsVal.obj [("", metaD)])]) ∧
    lookupField (Catalog.mk "" "s" [("", JsVal.obj [("", metaD)])]).locale_data
      "myplugin" = none := by
  refine ⟨by simp, rfl, rfl⟩

/-- C4 (code bug): the spec's scenario — a directory whose first template
file has no `X-Domain` marker while the second declares `X-Domain: foo` —
is supposed to return `foo`, but `content.match(...)` returns `null` for
the first file and the array destructuring throws a TypeError before the
second file is ever read.  The marker is present and extractable from the
second file, and a run over the second file alone returns `foo`. -/
theorem c4_extract_domain_crashes :
    extractDomain
      [("a.pot", "msgid \"hello\"\nmsgstr \"\"\n"), ("b.pot", "\"X-Domain: foo\\n\"")] =
      Except.error ExtractError.typeError ∧
    jsMatchXDomain "\"X-Domain: foo\\n\"" = some "foo" ∧
    extractDomain [("b.pot", "\"X-Domain: foo\\n\"")] = Except.ok "foo" := by
  refine ⟨rfl, rfl, rfl⟩

/-- C9 (amended): `makeJson` and `makeAliases` wrap their whole body in
try/catch and never propagate an error.  `makePot` runs `getData` before
its try block, so exactly the data-load errors escape.  `generatePlugin`
runs `inquirer.prompt`, `getData` and the scaffolding preparation of lines
121–155 before its try block, so all of their errors escape; moreover,
because `getData`'s paths object has no `projectRoot` key, the
`path.join(data.paths.projectRoot, ...)` on lines 122–125 throws an
uncaught TypeError on every run in which the prompt and the data load
succeed — `generatePlugin` never reaches its try/catch and never returns
normally. -/
theorem c9_error_boundaries :
    (∀ env : MakeJsonEnv, (makeJson env).isOk = true) ∧
    (∀ env : MakeAliasesEnv, (makeAliases env).isOk = true) ∧
    (∀ env : MakePotEnv, env.getData.isOk = true → (makePot env).isOk = true) ∧
    (∀ env : MakePotEnv, ∀ e, env.getData = Except.error e →
      makePot env = Except.error e) ∧
    (∀ env : GeneratePluginEnv, ∀ e, env.prompt = Except.error e →
      generatePlugin env = Except.error e) ∧
    (∀ env : GeneratePluginEnv, ∀ e, env.prompt.isOk = true →
      env.getData = Except.error e → generatePlugin env = Except.error e) ∧
    (∀ env : GeneratePluginEnv, env.prompt.isOk = true →
      env.getData.isOk = true →
      generatePlugin env =
        Except.error "TypeError: Path must be a string. Received undefined") := by
  refine ⟨?_, ?_, ?_, ?_, ?_, ?_, ?_⟩
  · intro env
    rw [makeJson]
    cases makeJsonBody env <;> rfl
  · intro env
    rw [makeAliases]
    cases makeAliasesBody env <;> rfl
  · intro env h
    rw [makePot]
    cases hg : env.getData with
    | error e => rw [hg] at h; simp [Except.isOk, Except.toBool] at h
    | ok _ => cases makePotBody env <;> rfl
  · intro env e h
    rw [makePot, h]
  · intro env e h
    rw [generatePlugin, h]
  · intro env e hp hd
    rw [generatePlugin]
    cases hgp : env.prompt with
    | error e' => rw [hgp] at hp; simp [Except.isOk, Except.toBool] at hp
    | ok _ => rw [hd]
  · intro env hp hd
    rw [generatePlugin]
    cases hgp : env.prompt with
    | error e => rw [hgp] at hp; simp [Except.isOk, Except.toBool] at hp
    | ok _ =>
      cases hgd : env.getData with
      | error e => rw [hgd] at hd; simp [Except.isOk, Except.toBool] at hd
      | ok data => rfl

/-- C9 witness: a `makePot` run whose data load succeeds but whose source
copy fails still returns normally (the error is caught and logged), and a
`generatePlugin` run whose prompt and data load both succeed throws the
uncaught TypeError from the pre-try `path.join` on the absent
`projectRoot` field. -/
theorem c9_error_boundaries_witness :
    (makePot
      { getData := Except.ok (), copySrc := Except.error "ENOENT",
        replaceImports := Except.ok (), execaWp := Except.ok (),
        copyBack := Except.ok (), removeTemp := Except.ok () }).isOk = true ∧
    generatePlugin
      { prompt := Except.ok (), getData := Except.ok ("/project", "/tmp"),
        pluginDir := "sst-my-plugin", renderTemplates := Except.ok (),
        mkdirs := Except.ok (), writeFiles := Except.ok () } =
      Except.error "TypeError: Path must be a string. Received undefined" :=
  ⟨c9_error_boundaries.2.2.1 _ rfl,
   c9_error_boundaries.2.2.2.2.2.2 _ rfl rfl⟩

/-- C9 counterexample: the claim says every top-level operation catches
every error at its boundary, but an error raised by `makePot`'s initial
`getData` call (line 19, before the try block) escapes to the caller. -/
theorem c9_counterexample :
    makePot
      { getData := Except.error "read-pkg-up failed", copySrc := Except.ok (),
        replaceImports := Except.ok (), execaWp := Except.ok (),
        copyBack := Except.ok (), removeTemp := Except.ok () } =
      Except.error "read-pkg-up failed" := rfl

/-- C1 (amended): for the fragments merged for one (entrypoint, locale)
pair — all carrying their table under the same domain key, with JSON-unique
keys per table — the merged `locale_data` is that single domain key bound to
a table whose key set is exactly the union of the fragments' table keys
(metadata empty-key entry included), and whose value at each key is the
left fold of lodash's recursive deep merge over the fragments' values at
that key in iteration order.  (Not, as the claim stated, simply the last
containing fragment's value: arrays merge index by index and objects key by
key; see the counterexample.) -/
theorem c1_merge_union_deep (dom : String) (c : Catalog) (cs : List Catalog)
    (tc : List (String × JsVal)) (ts : List (List (String × JsVal)))
    (hc : c.locale_data = [(dom, JsVal.obj tc)])
    (hcs : List.Forall₂
      (fun (d : Catalog) t => d.locale_data = [(dom, JsVal.obj t)]) cs ts)
    (hnodup : ∀ t ∈ ts, (t.map Prod.fst).Nodup) :
    ∃ T, (mergeCatalogs c cs).locale_data = [(dom, JsVal.obj T)] ∧
      (∀ k, lookupField T k =
        ts.foldl (fun acc t => mergeAtKey acc (lookupField t k))
          (lookupField tc k)) ∧
      (∀ k, (lookupField T k).isSome = true ↔
        ((lookupField tc k).isSome = true ∨
          ∃ t ∈ ts, (lookupField t k).isSome = true)) := by
  refine ⟨ts.foldl mergeFields tc,
    mergeCatalogs_localeData dom c cs tc ts hc hcs, ?_, ?_⟩
  · intro k
    exact lookupField_foldl_mergeFields ts tc k hnodup
  · intro k
    rw [lookupField_foldl_mergeFields ts tc k hnodup]
    exact foldl_mergeAtKey_isSome ts k (lookupField tc k)

/-- C1 witness: the amended merge description evaluated on two concrete
fragments sharing domain `d`. -/
theorem c1_merge_union_deep_witness :
    ∃ T, (mergeCatalogs cxFragA [cxFragB]).locale_data = [("d", JsVal.obj T)] ∧
      (∀ k, lookupField T k =
        [tblB].foldl (fun acc t => mergeAtKey acc (lookupField t k))
          (lookupField tblA k)) ∧
      (∀ k, (lookupField T k).isSome = true ↔
        ((lookupField tblA k).isSome = true ∨
          ∃ t ∈ [tblB], (lookupField t k).isSome = true)) :=
  c1_merge_union_deep "d" cxFragA [cxFragB] tblA [tblB] rfl
    (List.Forall₂.cons rfl List.Forall₂.nil) (by decide)

/-- C1 counterexample: both fragments contain key `k`; the last fragment's
value is the one-element array `["uno"]`, but the emitted value is
`["uno", "two"]` — lodash `_.merge` deep-merges arrays index by index, so
"the value of the last fragment containing that key" is false for the
code.  -/
theorem c1_counterexample :
    (mergeCatalogs cxFragA [cxFragB]).locale_data =
      [("d", JsVal.obj [("", metaD),
        ("k", JsVal.arr [JsVal.str "uno", JsVal.str "two"])])] ∧
    lookupField tblB "k" = some (JsVal.arr [JsVal.str "uno"]) ∧
    JsVal.arr [JsVal.str "uno", JsVal.str "two"] ≠ JsVal.arr [JsVal.str "uno"] := by
  refine ⟨rfl, rfl, by simp⟩

/-- C3: when no fragment's `source`, resolved against the project root,
lies in the entrypoint's dependency set, the iteration for that
(entrypoint, locale) pair emits no write and leaves the fragment store
untouched — the pair is skipped entirely; no empty catalog is produced. -/
theorem c3_no_match_no_write (madgeDeps : String → List String) (paths : Paths)
    (lang domain : String) (translations : List Catalog) (key v : String)
    (h : ∀ t ∈ translations,
      pathJoin paths.root t.source ∉ dependecies madgeDeps paths key) :
    processEntry madgeDeps paths lang domain translations key v =
      some (none, translations) := by
  have hf : translations.filter (isRelated madgeDeps paths key) = [] := by
    rw [List.filter_eq_nil_iff]
    intro t ht
    simp only [isRelated]
    simpa using h t ht
  rw [processEntry]
  by_cases hext : extname key ≠ ".js"
  · rw [if_pos hext]
  · rw [if_neg hext, hf]

/-- C3 witness: a fragment store whose single fragment is unrelated to the
entrypoint (the dependency set is empty) is skipped with no write. -/
theorem c3_no_match_no_write_witness :
    processEntry (fun _ => []) (Paths.mk "/project") "sv_SE" "myplugin"
      [svFrag] "a.js" "a.js" = some (none, [svFrag]) :=
  c3_no_match_no_write _ _ _ _ _ _ _ (by decide)

/-- C5 (amended): fragments are NOT read-only once loaded.  The iteration
for one (entrypoint, locale) pair overwrites, inside the shared per-locale
fragment array, the first fragment whose source matched the dependency set
(it is the destination lodash `_.merge` mutates, further rewritten by the
re-domain step and the `source` assignment, ending up as exactly the
emitted catalog); every fragment at any other index is unchanged, and a
skipped pair leaves the whole array unchanged.  A later entrypoint of the
same locale sharing that first fragment therefore observes the merged
contents, not the original ones. -/
theorem c5_first_fragment_mutated (madgeDeps : String → List String)
    (paths : Paths) (lang domain : String) (ts : List Catalog) (key v : String)
    (res : Option (String × Catalog) × List Catalog)
    (h : processEntry madgeDeps paths lang domain ts key v = some res) :
    (res.1 = none → res.2 = ts) ∧
    (∀ fname c, res.1 = some (fname, c) →
      ∃ i, ts.findIdx? (isRelated madgeDeps paths key) = some i ∧
        res.2 = ts.set i c ∧
        ∀ j, j ≠ i → res.2[j]? = ts[j]?) := by
  rw [processEntry] at h
  by_cases hext : extname key ≠ ".js"
  · rw [if_pos hext] at h
    simp only [Option.some.injEq] at h
    subst h
    exact ⟨fun _ => rfl, fun fname c hc => by simp at hc⟩
  · rw [if_neg hext] at h
    cases hf : ts.filter (isRelated madgeDeps paths key) with
    | nil =>
      rw [hf] at h
      simp only [Option.some.injEq] at h
      subst h
      exact ⟨fun _ => rfl, fun fname c hc => by simp at hc⟩
    | cons first rest =>
      rw [hf] at h
      dsimp only at h
      cases hr : redomain domain (mergeCatalogs first rest) with
      | none => rw [hr] at h; simp at h
      | some c1 =>
        rw [hr] at h
        simp only [Option.some.injEq] at h
        subst h
        constructor
        · intro hc; simp at hc
        · intro fname c hc
          simp only [Option.some.injEq, Prod.mk.injEq] at hc
          obtain ⟨i, hi⟩ := findIdx?_isSome_of_filter_cons _ _ _ _ hf
          refine ⟨i, hi, ?_, ?_⟩
          · rw [← hc.2]
            show updateFirst (isRelated madgeDeps paths key) _ ts = _
            rw [updateFirst_eq_set, hi]
          · intro j hj
            show (updateFirst (isRelated madgeDeps paths key) _ ts)[j]? = ts[j]?
            rw [updateFirst_eq_set, hi]
            exact List.getElem?_set_ne (fun he => hj he.symm)

set_option maxRecDepth 100000 in
/-- C5 witness: the frame part of the amended claim at a concrete store with
one matching fragment: index 0 is the first match and is set to the emitted
catalog, all other indices read back unchanged. -/
theorem c5_first_fragment_mutated_witness :
    ∃ i, ([svFrag] : List Catalog).findIdx?
        (isRelated (fun _ => ["a.js"]) (Paths.mk "/project") "a.js") = some i ∧
      ([svFragOut] : List Catalog) = ([svFrag] : List Catalog).set i svFragOut ∧
      ∀ j, j ≠ i →
        ([svFragOut] : List Catalog)[j]? = ([svFrag] : List Catalog)[j]? :=
  (c5_first_fragment_mutated (fun _ => ["a.js"]) (Paths.mk "/project") "sv_SE"
      "myplugin" [svFrag] "a.js" "a.js"
      (some ("/project/dist/myplugin-sv_SE-f153dd16438d0774b243364f64722ca2.json",
        svFragOut), [svFragOut]) rfl).2
    "/project/dist/myplugin-sv_SE-f153dd16438d0774b243364f64722ca2.json"
    svFragOut rfl

set_option maxRecDepth 100000 in
/-- C5 counterexample: merging is observably mutating — after processing an
entrypoint whose dependency set matches the store's single fragment, the
stored fragment is no longer the original: its domain, source and
locale_data have all been rewritten in place, so the claim that every input
fragment object is left unchanged is false. -/
theorem c5_counterexample :
    processEntry (fun _ => ["a.js"]) (Paths.mk "/project") "sv_SE" "myplugin"
      [svFrag] "a.js" "a.js" =
      some (some ("/project/dist/myplugin-sv_SE-f153dd16438d0774b243364f64722ca2.json",
        svFragOut), [svFragOut]) ∧
    svFragOut ≠ svFrag := by
  refine ⟨rfl, by simp [svFragOut, svFrag]⟩

/-- C6: every emitted catalog's filename is
`paths.dist/{domain}-{lang}-{md5 hex of the output path relative to the
project root}.json` (the relative output path being `dist/<manifest
value>`), and the filename is a pure deterministic function of
(domain, locale, manifest value): any other iteration over the same triple
— whatever its fragments, dependency analyzer or entry key — emits the
byte-identical filename. -/
theorem c6_output_filename (madgeDeps : String → List String) (paths : Paths)
    (lang domain : String) (ts : List Catalog) (key v : String)
    (fname : String) (c : Catalog) (ts' : List Catalog)
    (h : processEntry madgeDeps paths lang domain ts key v =
      some (some (fname, c), ts')) :
    fname = pathJoin paths.dist
      (domain ++ "-" ++ lang ++ "-" ++ md5hex ("dist/" ++ v) ++ ".json") ∧
    ∀ (madgeDeps₂ : String → List String) (ts₂ : List Catalog)
      (key₂ fname₂ : String) (c₂ : Catalog) (ts₂' : List Catalog),
      processEntry madgeDeps₂ paths lang domain ts₂ key₂ v =
        some (some (fname₂, c₂), ts₂') → fname₂ = fname := by
  obtain ⟨_, _, _, _, _, _, hfn, _⟩ :=
    processEntry_emits madgeDeps paths lang domain ts key v fname c ts' h
  have h1 : fname = pathJoin paths.dist
      (domain ++ "-" ++ lang ++ "-" ++ md5hex ("dist/" ++ v) ++ ".json") := by
    rw [hfn, relativeFilename_eq]
  refine ⟨h1, ?_⟩
  intro madgeDeps₂ ts₂ key₂ fname₂ c₂ ts₂' h₂
  obtain ⟨_, _, _, _, _, _, hfn₂, _⟩ :=
    processEntry_emits madgeDeps₂ paths lang domain ts₂ key₂ v fname₂ c₂ ts₂' h₂
  rw [hfn₂, relativeFilename_eq, h1]

set_option maxRecDepth 100000 in
/-- C6 witness: the concrete manifest entry `a.js ↦ a.abc123.js` under
domain `myplugin` and locale `en_US` produces the filename ending in the
md5 digest of `dist/a.abc123.js`, and any other iteration over the same
(domain, locale, manifest value) produces the same filename. -/
theorem c6_output_filename_witness :
    "/project/dist/myplugin-en_US-8c2b5f0d58e04726d427fd22142167cf.json" =
      pathJoin (Paths.dist (Paths.mk "/project"))
        ("myplugin" ++ "-" ++ "en_US" ++ "-" ++
          md5hex ("dist/" ++ "a.abc123.js") ++ ".json") ∧
    ∀ (madgeDeps₂ : String → List String) (ts₂ : List Catalog)
      (key₂ fname₂ : String) (c₂ : Catalog) (ts₂' : List Catalog),
      processEntry madgeDeps₂ (Paths.mk "/project") "en_US" "myplugin" ts₂ key₂
        "a.abc123.js" = some (some (fname₂, c₂), ts₂') →
      fname₂ = "/project/dist/myplugin-en_US-8c2b5f0d58e04726d427fd22142167cf.json" :=
  c6_output_filename (fun _ => ["a.js"]) (Paths.mk "/project") "en_US" "myplugin"
    [enFrag] "a.js" "a.abc123.js"
    "/project/dist/myplugin-en_US-8c2b5f0d58e04726d427fd22142167cf.json"
    enFragOut [enFragOut] rfl

/-- C7: every emitted catalog's `source` field is the manifest-resolved
build output path of the entrypoint, expressed relative to the project root
with no leading path separator — `dist/<manifest value>`, for every
project root. -/
theorem c7_source_field (madgeDeps : String → List String) (paths : Paths)
    (lang domain : String) (ts : List Catalog) (key v : String)
    (fname : String) (c : Catalog) (ts' : List Catalog)
    (h : processEntry madgeDeps paths lang domain ts key v =
      some (some (fname, c), ts')) :
    c.source = "dist/" ++ v := by
  obtain ⟨_, _, c1, _, _, hc, _, _⟩ :=
    processEntry_emits madgeDeps paths lang domain ts key v fname c ts' h
  rw [hc]
  exact relativeFilename_eq paths v

set_option maxRecDepth 100000 in
/-- C7 witness: the spec's scenario — manifest `{"a.js": "a.abc123.js"}`,
one `en_US` fragment with source `src/a.js`, domain target `myplugin` —
emits exactly one file whose catalog carries `domain = "myplugin"` and
`source = "dist/a.abc123.js"`. -/
theorem c7_source_field_witness :
    processEntry (fun _ => ["a.js"]) (Paths.mk "/project") "en_US" "myplugin"
      [enFrag] "a.js" "a.abc123.js" =
      some (some ("/project/dist/myplugin-en_US-8c2b5f0d58e04726d427fd22142167cf.json",
        enFragOut), [enFragOut]) ∧
    enFragOut.source = "dist/" ++ "a.abc123.js" ∧
    enFragOut.domain = "myplugin" :=
  ⟨rfl,
   c7_source_field (fun _ => ["a.js"]) (Paths.mk "/project") "en_US" "myplugin"
     [enFrag] "a.js" "a.abc123.js"
     "/project/dist/myplugin-en_US-8c2b5f0d58e04726d427fd22142167cf.json"
     enFragOut [enFragOut] rfl,
   rfl⟩

theorem lookupField_foldl_setField_not_mem (g : String × String → String)
    (entries : List (String × String)) (base : List (String × String)) (k : String)
    (h : k ∉ entries.map Prod.fst) :
    lookupField (entries.foldl (fun acc nf => setField acc nf.1 (g nf)) base) k =
      lookupField base k := by
  induction entries generalizing base with
  | nil => rfl
  | cons e rest ih =>
    simp only [List.map_cons, List.mem_cons, not_or] at h
    rw [List.foldl_cons, ih _ h.2,
      lookupField_setField_ne _ _ _ _ (fun he => h.1 he.symm)]

theorem lookupField_foldl_setField_mem (g : String × String → String)
    (entries : List (String × String)) (base : List (String × String))
    (k v : String)
    (hmem : k ∈ entries.map Prod.fst)
    (hval : ∀ nf ∈ entries, nf.1 = k → g nf = v) :
    lookupField (entries.foldl (fun acc nf => setField acc nf.1 (g nf)) base) k =
      some v := by
  induction entries generalizing base with
  | nil => simp at hmem
  | cons e rest ih =>
    rw [List.foldl_cons]
    by_cases hr : k ∈ rest.map Prod.fst
    · exact ih _ hr (fun nf hnf hk => hval nf (List.mem_cons_of_mem _ hnf) hk)
    · have he : e.1 = k := by
        rw [List.map_cons] at hmem
        rcases List.mem_cons.mp hmem with h1 | h1
        · exact h1.symm
        · exact absurd h1 hr
      rw [lookupField_foldl_setField_not_mem g rest _ k hr, he,
        lookupField_setField_self, hval e (List.mem_cons_self _ _) he]

theorem lookupField_filter_key {β : Type} (p : String → Bool)
    (l : List (String × β)) (k : String) :
    lookupField (l.filter (fun kv => p kv.1)) k =
      if p k then lookupField l k else none := by
  induction l with
  | nil => simp [lookupField]
  | cons e rest ih =>
    obtain ⟨k₀, v₀⟩ := e
    by_cases hp : p k₀
    · rw [List.filter_cons_of_pos (by simpa using hp)]
      by_cases hk : k₀ = k
      · subst hk
        simp [lookupField, hp]
      · simp only [lookupField, hk, if_false]
        rw [ih]
    · rw [List.filter_cons_of_neg (by simpa using hp)]
      rw [ih]
      by_cases hk : k₀ = k
      · subst hk
        simp [lookupField, hp]
      · by_cases hpk : p k <;> simp [hpk, lookupField, hk]

theorem wpValue_eq (m : String) :
    aliasesRelativeRoot ++ "/" ++ ("wordpress-" ++ m ++ ".js") =
      "./src/alias/wordpress-" ++ m ++ ".js" := by
  apply stringExt
  simp only [string_data_append]
  simp [aliasesRelativeRoot, List.append_assoc]

/-- A key containing `@wordpress` is among the derived dependency-entry
names exactly when it is a declared dependency (the `react`/`lodash`
special entries cannot carry such a key). -/
theorem mem_aliasFileEntries_names_iff (deps : List String) (k : String)
    (hk : isSubstr "@wordpress" k = true) :
    k ∈ (aliasFileEntries deps).map Prod.fst ↔ k ∈ deps := by
  constructor
  · intro hmem
    rcases List.mem_map.mp hmem with ⟨nf, hnf, hfst⟩
    rw [aliasFileEntries] at hnf
    rcases List.mem_append.mp hnf with h1 | h2
    · rcases List.mem_append.mp h1 with hw | hrct
      · rcases List.mem_map.mp hw with ⟨d, hd, rfl⟩
        rw [← hfst]
        exact (List.mem_filter.mp hd).1
      · by_cases hr : deps.contains "react"
        · rw [if_pos hr] at hrct
          simp only [List.mem_singleton] at hrct
          rw [hrct] at hfst
          rw [← hfst] at hk
          exact absurd hk (by decide)
        · rw [if_neg hr] at hrct
          simp at hrct
    · by_cases hl : deps.contains "lodash"
      · rw [if_pos hl] at h2
        simp only [List.mem_singleton] at h2
        rw [h2] at hfst
        rw [← hfst] at hk
        exact absurd hk (by decide)
      · rw [if_neg hl] at h2
        simp at h2
  · intro hd
    apply List.mem_map.mpr
    refine ⟨(k, "wordpress-" ++ moduleNameOf k ++ ".js"), ?_, rfl⟩
    rw [aliasFileEntries]
    apply List.mem_append.mpr
    left
    apply List.mem_append.mpr
    left
    exact List.mem_map.mpr ⟨k, List.mem_filter.mpr ⟨hd, by simpa using hk⟩, rfl⟩

/-- Every derived dependency entry whose name is a given
`@wordpress`-containing key carries the same alias value. -/
theorem aliasFileEntries_value (deps : List String) (k : String)
    (hk : isSubstr "@wordpress" k = true) :
    ∀ nf ∈ aliasFileEntries deps, nf.1 = k →
      aliasesRelativeRoot ++ "/" ++ nf.2 =
        "./src/alias/wordpress-" ++ moduleNameOf k ++ ".js" := by
  intro nf hnf hfst
  rw [aliasFileEntries] at hnf
  rcases List.mem_append.mp hnf with h1 | h2
  · rcases List.mem_append.mp h1 with hw | hrct
    · rcases List.mem_map.mp hw with ⟨d, _, rfl⟩
      simp only at hfst
      rw [hfst]
      exact wpValue_eq _
    · by_cases hr : deps.contains "react"
      · rw [if_pos hr] at hrct
        simp only [List.mem_singleton] at hrct
        rw [hrct] at hfst
        rw [← hfst] at hk
        exact absurd hk (by decide)
      · rw [if_neg hr] at hrct
        simp at hrct
  · by_cases hl : deps.contains "lodash"
    · rw [if_pos hl] at h2
      simp only [List.mem_singleton] at h2
      rw [h2] at hfst
      rw [← hfst] at hk
      exact absurd hk (by decide)
    · rw [if_neg hl] at h2
      simp at h2

/-- C10 (amended): `makeAliases` rewrites `pkg.alias` so that (a) a
pre-existing entry whose key does not contain `@wordpress` and is not among
the freshly derived dependency entry names (the `react`/`lodash` special
cases can overwrite such keys) keeps its original value, and (b) a key
containing `@wordpress` is present afterwards exactly when it is a declared
dependency, bound to `./src/alias/wordpress-{module}.js` where `module` is
the key's second `/`-separated segment. -/
theorem c10_alias_rewrite (pkgAlias : List (String × String)) (deps : List String)
    (k : String) :
    (isSubstr "@wordpress" k = false →
      k ∉ (aliasFileEntries deps).map Prod.fst →
      lookupField (makeAliasesAlias pkgAlias deps) k = lookupField pkgAlias k) ∧
    (isSubstr "@wordpress" k = true →
      lookupField (makeAliasesAlias pkgAlias deps) k =
        if k ∈ deps then
          some ("./src/alias/wordpress-" ++ moduleNameOf k ++ ".js")
        else none) := by
  constructor
  · intro hk hmem
    rw [makeAliasesAlias]
    rw [lookupField_foldl_setField_not_mem _ _ _ _ hmem]
    rw [lookupField_filter_key (fun s => !(isSubstr "@wordpress" s)) pkgAlias k]
    simp [hk]
  · intro hk
    by_cases hd : k ∈ deps
    · rw [if_pos hd, makeAliasesAlias]
      exact lookupField_foldl_setField_mem _ _ _ _ _
        ((mem_aliasFileEntries_names_iff deps k hk).mpr hd)
        (aliasFileEntries_value deps k hk)
    · rw [if_neg hd, makeAliasesAlias]
      rw [lookupField_foldl_setField_not_mem _ _ _ _
        (fun hmem => hd ((mem_aliasFileEntries_names_iff deps k hk).mp hmem))]
      rw [lookupField_filter_key (fun s => !(isSubstr "@wordpress" s)) pkgAlias k]
      simp [hk]

/-- C10 witness: a non-`@wordpress` key not touched by the derived entries
keeps its value, and an `@wordpress` dependency key is bound to its alias
file. -/
theorem c10_alias_rewrite_witness :
    lookupField (makeAliasesAlias [("foo", "./foo.js")] ["@wordpress/element"])
      "foo" = lookupField [("foo", "./foo.js")] "foo" ∧
    lookupField (makeAliasesAlias [("foo", "./foo.js")] ["@wordpress/element"])
      "@wordpress/element" =
      (if "@wordpress/element" ∈ ["@wordpress/element"] then
        some ("./src/alias/wordpress-" ++ moduleNameOf "@wordpress/element" ++ ".js")
      else none) :=
  ⟨(c10_alias_rewrite [("foo", "./foo.js")] ["@wordpress/element"] "foo").1
      rfl (by decide),
   (c10_alias_rewrite [("foo", "./foo.js")] ["@wordpress/element"]
      "@wordpress/element").2 rfl⟩

/-- C10 counterexample: the claim says every pre-existing alias entry whose
key does not contain `@wordpress` is preserved unchanged, but when `react`
is a declared dependency the special-case loop overwrites the pre-existing
non-`@wordpress` key `react`. -/
theorem c10_counterexample :
    isSubstr "@wordpress" "react" = false ∧
    lookupField [("react", "./my-react.js")] "react" = some "./my-react.js" ∧
    lookupField (makeAliasesAlias [("react", "./my-react.js")] ["react"]) "react" =
      some "./src/alias/react.js" ∧
    some "./src/alias/react.js" ≠ some "./my-react.js" := by
  refine ⟨rfl, rfl, rfl, by simp⟩

end SstScripts

